import Mathlib

/-!
Verification of the Ken Burns video generator
(`src/generation/video_generator.py`).

The generator turns a source image, a list of rectangular snippet regions
(with optional narration audio) and a list of overlay sub-images into an
ffmpeg command implementing a zoom/pan animation.  This file shallowly
embeds the numeric content of that module: Python floats are modelled as
rationals (`ℚ`), Python ints as `Int`, Python `int(...)` truncation as
`pyInt`, Python `//` floor division as `Int.fdiv`, exceptions as `Except`,
and `os.path.exists` as an explicit predicate parameter.
-/

/-- Python `int(q)` on a rational: truncation toward zero, i.e. the
numerator divided by the denominator with `Int.tdiv`. -/
def pyInt (q : ℚ) : Int :=
  Int.tdiv q.num (q.den : Int)

theorem pyInt_nonneg {q : ℚ} (h : 0 ≤ q) : 0 ≤ pyInt q :=
  Int.tdiv_nonneg (Rat.num_nonneg.mpr h) (Int.natCast_nonneg q.den)

theorem den_one_cast {q : ℚ} (h : q.den = 1) : ((q.num : ℚ)) = q := by
  have := q.num_div_den
  rw [h] at this
  simpa using this

theorem pyInt_den_one {q : ℚ} (h : q.den = 1) : pyInt q = q.num := by
  unfold pyInt
  rw [h]
  exact Int.tdiv_one q.num

theorem pyInt_den_one_cast {q : ℚ} (h : q.den = 1) : ((pyInt q : ℚ)) = q := by
  rw [pyInt_den_one h]
  exact den_one_cast h

/-- A snippet region of interest (`Snippet` dataclass): a rectangle in
source-image pixel coordinates plus optional narration audio. -/
structure Snippet where
  x : Int
  y : Int
  width : Int
  height : Int
  text : String := ""
  audio_path : Option String := none
  audio_duration : ℚ := 0
  deriving DecidableEq

/-- A sub-image overlay entry (element of the `sub_images` list of dicts);
`dict.get` defaults are modelled as field defaults. -/
structure SubImage where
  after_snip : Int := 0
  audio_path : Option String := none
  audio_duration : ℚ := 0
  image_path : Option String := none
  persistent : Bool := false
  position : Int × Int := (0, 0)
  deriving DecidableEq

/-- A camera keyframe (`Keyframe` dataclass): frame index plus zoom and
center point in source-image coordinates. -/
structure Keyframe where
  frame : Int
  zoom : ℚ
  center_x : Int
  center_y : Int
  deriving DecidableEq

/-- Post-constructor state of `KenBurnsGenerator`: the stored configuration
after the `ken_burns` zeroing of intro/travel/outro has been applied and
the image dimensions have been resolved. -/
structure KenBurnsGenerator where
  image_width : Int
  image_height : Int
  snippets : List Snippet
  sub_images : List SubImage
  fps : Int
  intro_duration : ℚ
  snippet_duration : ℚ
  hold_duration : ℚ
  outro_duration : ℚ
  min_zoom : ℚ
  max_zoom : ℚ
  ken_burns : Bool
  deriving DecidableEq

/-- `KenBurnsGenerator._get_image_dimensions`: `ffprobe` is external, so its
outcome is the `probe` argument; on failure the code prints a warning and
falls back to 1920x1080 rather than failing. -/
def get_image_dimensions (probe : Option (Int × Int)) : Int × Int :=
  match probe with
  | some wh => wh
  | none => (1920, 1080)

/-- `KenBurnsGenerator.__init__`: when `ken_burns` is false the intro,
travel (snippet) and outro durations are all set to 0; the hold duration is
kept either way. -/
def mkGenerator (image_width image_height : Int) (snippets : List Snippet)
    (sub_images : List SubImage) (fps : Int)
    (intro_duration snippet_duration hold_duration outro_duration : ℚ)
    (min_zoom max_zoom : ℚ) (ken_burns : Bool) : KenBurnsGenerator :=
  { image_width := image_width
    image_height := image_height
    snippets := snippets
    sub_images := sub_images
    fps := fps
    intro_duration := if ken_burns then intro_duration else 0
    snippet_duration := if ken_burns then snippet_duration else 0
    hold_duration := hold_duration
    outro_duration := if ken_burns then outro_duration else 0
    min_zoom := min_zoom
    max_zoom := max_zoom
    ken_burns := ken_burns }

/-- Engine construction from an image-dimension probe result: `__init__`
resolves the dimensions through `_get_image_dimensions` and stores them. -/
def mkGeneratorFromProbe (probe : Option (Int × Int)) (snippets : List Snippet)
    (sub_images : List SubImage) (fps : Int)
    (intro_duration snippet_duration hold_duration outro_duration : ℚ)
    (min_zoom max_zoom : ℚ) (ken_burns : Bool) : KenBurnsGenerator :=
  let wh := get_image_dimensions probe
  mkGenerator wh.1 wh.2 snippets sub_images fps intro_duration snippet_duration
    hold_duration outro_duration min_zoom max_zoom ken_burns

/-- Errors of the zoom computation.  `zeroDivision` models Python's
`ZeroDivisionError`; `invalidRegion` is the spec's `InvalidRegion` error
kind, which the source never raises (no such check exists in the code). -/
inductive CalcError
  | zeroDivision
  | invalidRegion
  deriving DecidableEq

/-- `KenBurnsGenerator._calculate_zoom_for_snippet`: with padding factor
0.8, `zoom = min(image_w*0.8/width, image_h*0.8/height)` clamped to
`[min_zoom, max_zoom]`.  A zero width or height raises `ZeroDivisionError`
in Python, modelled as the `zeroDivision` error. -/
def calculate_zoom_for_snippet (g : KenBurnsGenerator) (s : Snippet) :
    Except CalcError ℚ :=
  if s.width = 0 ∨ s.height = 0 then
    Except.error CalcError.zeroDivision
  else
    let zoom_x : ℚ := ((g.image_width : ℚ) * (4 / 5)) / (s.width : ℚ)
    let zoom_y : ℚ := ((g.image_height : ℚ) * (4 / 5)) / (s.height : ℚ)
    let zoom := min zoom_x zoom_y
    Except.ok (max g.min_zoom (min g.max_zoom zoom))

/-- Total variant of the zoom formula (`ℚ` division by zero is 0, so this is
defined everywhere; it agrees with `calculate_zoom_for_snippet` whenever the
region has nonzero width and height). -/
def zoom_clamped (g : KenBurnsGenerator) (s : Snippet) : ℚ :=
  max g.min_zoom (min g.max_zoom
    (min (((g.image_width : ℚ) * (4 / 5)) / (s.width : ℚ))
      (((g.image_height : ℚ) * (4 / 5)) / (s.height : ℚ))))

theorem calculate_zoom_ok (g : KenBurnsGenerator) (s : Snippet)
    (hw : s.width ≠ 0) (hh : s.height ≠ 0) :
    calculate_zoom_for_snippet g s = Except.ok (zoom_clamped g s) := by
  unfold calculate_zoom_for_snippet zoom_clamped
  rw [if_neg]
  push_neg
  exact ⟨hw, hh⟩

/-- Frame length of a travel segment: `int(self.snippet_duration * self.fps)`. -/
def travel_frames (g : KenBurnsGenerator) : Int :=
  pyInt (g.snippet_duration * (g.fps : ℚ))

/-- Frame length of a snippet's hold segment:
`int(max(snippet.audio_duration, self.hold_duration) * self.fps)`. -/
def hold_frames (g : KenBurnsGenerator) (s : Snippet) : Int :=
  pyInt (max s.audio_duration g.hold_duration * (g.fps : ℚ))

/-- `snippet.x + snippet.width // 2` (Python floor division). -/
def snippet_center_x (s : Snippet) : Int := s.x + Int.fdiv s.width 2

/-- `snippet.y + snippet.height // 2` (Python floor division). -/
def snippet_center_y (s : Snippet) : Int := s.y + Int.fdiv s.height 2

/-- The per-snippet loop of `_calculate_keyframes`: for each snippet a
travel keyframe then a hold keyframe, advancing `current_frame`; returns
the emitted keyframes together with the final `current_frame`. -/
def snippet_keyframes (g : KenBurnsGenerator) :
    List Snippet → Int → List Keyframe × Int
  | [], cur => ([], cur)
  | s :: rest, cur =>
    let z := zoom_clamped g s
    let f1 := cur + travel_frames g
    let f2 := f1 + hold_frames g s
    let t := snippet_keyframes g rest f2
    (⟨f1, z, snippet_center_x s, snippet_center_y s⟩ ::
      ⟨f2, z, snippet_center_x s, snippet_center_y s⟩ :: t.1, t.2)

/-- `_calculate_keyframes` on the successful path (no snippet of zero width
or height): intro pair at zoom 1 and image center, the snippet travel/hold
pairs, then the outro keyframe.  The `sub_images` list is not consulted. -/
def calculate_keyframes_core (g : KenBurnsGenerator) : List Keyframe :=
  let icx := Int.fdiv g.image_width 2
  let icy := Int.fdiv g.image_height 2
  let introF := pyInt (g.intro_duration * (g.fps : ℚ))
  let body := snippet_keyframes g g.snippets introF
  let outroF := body.2 + pyInt (g.outro_duration * (g.fps : ℚ))
  ⟨0, 1, icx, icy⟩ :: ⟨introF, 1, icx, icy⟩ :: (body.1 ++ [⟨outroF, 1, icx, icy⟩])

/-- `_calculate_keyframes` with Python exception propagation: the zoom of a
zero-width or zero-height snippet raises `ZeroDivisionError`, which aborts
keyframe construction (and hence `__init__`). -/
def calculate_keyframes (g : KenBurnsGenerator) : Except CalcError (List Keyframe) :=
  if g.snippets.any (fun s => s.width == 0 || s.height == 0) then
    Except.error CalcError.zeroDivision
  else
    Except.ok (calculate_keyframes_core g)

/-- Combined frame length of one snippet's travel plus hold. -/
def step_frames (g : KenBurnsGenerator) (s : Snippet) : Int :=
  travel_frames g + hold_frames g s

/-- Total frame count contributed by a list of snippets. -/
def clock_frames (g : KenBurnsGenerator) (ss : List Snippet) : Int :=
  (ss.map (step_frames g)).sum

theorem snippet_keyframes_length (g : KenBurnsGenerator) :
    ∀ (ss : List Snippet) (cur : Int),
      (snippet_keyframes g ss cur).1.length = 2 * ss.length
  | [], _ => rfl
  | s :: rest, cur => by
    simp [snippet_keyframes, snippet_keyframes_length g rest]
    ring

theorem snippet_keyframes_snd (g : KenBurnsGenerator) :
    ∀ (ss : List Snippet) (cur : Int),
      (snippet_keyframes g ss cur).2 = cur + clock_frames g ss
  | [], cur => by simp [snippet_keyframes, clock_frames]
  | s :: rest, cur => by
    simp only [snippet_keyframes, snippet_keyframes_snd g rest, clock_frames,
      List.map_cons, List.sum_cons, step_frames]
    ring

theorem snippet_keyframes_get (g : KenBurnsGenerator) :
    ∀ (ss : List Snippet) (cur : Int) (i : Nat) (s : Snippet), ss[i]? = some s →
      (snippet_keyframes g ss cur).1[2 * i]? =
        some ⟨cur + clock_frames g (ss.take i) + travel_frames g,
          zoom_clamped g s, snippet_center_x s, snippet_center_y s⟩ ∧
      (snippet_keyframes g ss cur).1[2 * i + 1]? =
        some ⟨cur + clock_frames g (ss.take (i + 1)),
          zoom_clamped g s, snippet_center_x s, snippet_center_y s⟩
  | [], _, i, s, h => by simp at h
  | a :: rest, cur, 0, s, h => by
    simp only [List.getElem?_cons_zero, Option.some.injEq] at h
    subst h
    constructor
    · simp [snippet_keyframes, clock_frames]
    · simp only [snippet_keyframes, Nat.mul_zero, Nat.zero_add,
        List.getElem?_cons_succ, List.getElem?_cons_zero, clock_frames,
        List.take, List.map_cons, List.map_nil, List.sum_cons, List.sum_nil,
        step_frames, Option.some.injEq, Keyframe.mk.injEq]
      exact ⟨by ring, trivial, trivial, trivial⟩
  | a :: rest, cur, i + 1, s, h => by
    have h' : rest[i]? = some s := by simpa using h
    have ih := snippet_keyframes_get g rest
      (cur + travel_frames g + hold_frames g a) i s h'
    have e1 : 2 * (i + 1) = 2 * i + 1 + 1 := by ring
    rw [e1]
    simp only [snippet_keyframes, List.getElem?_cons_succ]
    have etake : (a :: rest).take (i + 1) = a :: rest.take i := rfl
    have etake2 : (a :: rest).take (i + 1 + 1) = a :: rest.take (i + 1) := rfl
    constructor
    · rw [ih.1, etake]
      simp only [clock_frames, List.map_cons, List.sum_cons, step_frames,
        Option.some.injEq, Keyframe.mk.injEq]
      exact ⟨by ring, trivial, trivial, trivial⟩
    · rw [ih.2, etake2]
      simp only [clock_frames, List.map_cons, List.sum_cons, step_frames,
        Option.some.injEq, Keyframe.mk.injEq]
      exact ⟨by ring, trivial, trivial, trivial⟩

theorem snippet_keyframes_chain (g : KenBurnsGenerator) (ht : 0 ≤ travel_frames g) :
    ∀ (ss : List Snippet) (cur b : Int), (∀ s ∈ ss, 0 ≤ hold_frames g s) →
      (snippet_keyframes g ss cur).2 ≤ b →
      List.Chain (· ≤ ·) cur
        (((snippet_keyframes g ss cur).1.map Keyframe.frame) ++ [b])
  | [], cur, b, _, hb => by
    simp only [snippet_keyframes] at hb ⊢
    exact List.Chain.cons hb List.Chain.nil
  | a :: rest, cur, b, hs, hb => by
    simp only [snippet_keyframes, List.map_cons, List.cons_append] at hb ⊢
    have ha : 0 ≤ hold_frames g a := hs a (List.mem_cons_self a rest)
    refine List.Chain.cons (by linarith) (List.Chain.cons (by linarith) ?_)
    exact snippet_keyframes_chain g ht rest (cur + travel_frames g + hold_frames g a)
      b (fun s hsmem => hs s (List.mem_cons_of_mem a hsmem)) hb

/-- Frame length of the intro segment: `int(self.intro_duration * self.fps)`. -/
def intro_frames (g : KenBurnsGenerator) : Int :=
  pyInt (g.intro_duration * (g.fps : ℚ))

/-- Frame length of the outro segment: `int(self.outro_duration * self.fps)`. -/
def outro_frames (g : KenBurnsGenerator) : Int :=
  pyInt (g.outro_duration * (g.fps : ℚ))

/-- `self.image_width // 2`. -/
def image_center_x (g : KenBurnsGenerator) : Int := Int.fdiv g.image_width 2

/-- `self.image_height // 2`. -/
def image_center_y (g : KenBurnsGenerator) : Int := Int.fdiv g.image_height 2

/-- Frame of the outro keyframe, the last frame of the video. -/
def final_frame (g : KenBurnsGenerator) : Int :=
  intro_frames g + clock_frames g g.snippets + outro_frames g

theorem calculate_keyframes_core_eq (g : KenBurnsGenerator) :
    calculate_keyframes_core g =
      ⟨0, 1, image_center_x g, image_center_y g⟩ ::
      ⟨intro_frames g, 1, image_center_x g, image_center_y g⟩ ::
      ((snippet_keyframes g g.snippets (intro_frames g)).1 ++
        [⟨final_frame g, 1, image_center_x g, image_center_y g⟩]) := by
  simp only [calculate_keyframes_core, final_frame, intro_frames, outro_frames,
    image_center_x, image_center_y, snippet_keyframes_snd]

theorem calculate_keyframes_core_length (g : KenBurnsGenerator) :
    (calculate_keyframes_core g).length = 2 * g.snippets.length + 3 := by
  rw [calculate_keyframes_core_eq]
  simp [snippet_keyframes_length]

theorem calculate_keyframes_core_head (g : KenBurnsGenerator) :
    (calculate_keyframes_core g)[0]? =
      some ⟨0, 1, image_center_x g, image_center_y g⟩ := by
  rw [calculate_keyframes_core_eq]
  rfl

theorem calculate_keyframes_core_getLast (g : KenBurnsGenerator) :
    (calculate_keyframes_core g).getLast? =
      some ⟨final_frame g, 1, image_center_x g, image_center_y g⟩ := by
  rw [calculate_keyframes_core_eq]
  rw [show (⟨0, 1, image_center_x g, image_center_y g⟩ ::
      ⟨intro_frames g, 1, image_center_x g, image_center_y g⟩ ::
      ((snippet_keyframes g g.snippets (intro_frames g)).1 ++
        [⟨final_frame g, 1, image_center_x g, image_center_y g⟩]) : List Keyframe) =
      (⟨0, 1, image_center_x g, image_center_y g⟩ ::
      ⟨intro_frames g, 1, image_center_x g, image_center_y g⟩ ::
      (snippet_keyframes g g.snippets (intro_frames g)).1) ++
        [⟨final_frame g, 1, image_center_x g, image_center_y g⟩] by simp]
  exact List.getLast?_concat _

theorem calculate_keyframes_core_get (g : KenBurnsGenerator) (i : Nat) (s : Snippet)
    (h : g.snippets[i]? = some s) :
    (calculate_keyframes_core g)[2 * i + 2]? =
      some ⟨intro_frames g + clock_frames g (g.snippets.take i) + travel_frames g,
        zoom_clamped g s, snippet_center_x s, snippet_center_y s⟩ ∧
    (calculate_keyframes_core g)[2 * i + 3]? =
      some ⟨intro_frames g + clock_frames g (g.snippets.take (i + 1)),
        zoom_clamped g s, snippet_center_x s, snippet_center_y s⟩ := by
  have hi : i < g.snippets.length := by
    by_contra hlt
    push_neg at hlt
    rw [List.getElem?_eq_none hlt] at h
    exact Option.noConfusion h
  have hk := snippet_keyframes_get g g.snippets (intro_frames g) i s h
  have hlen : (snippet_keyframes g g.snippets (intro_frames g)).1.length =
      2 * g.snippets.length := snippet_keyframes_length g _ _
  rw [calculate_keyframes_core_eq]
  have e2 : 2 * i + 2 = (2 * i + 1) + 1 := by omega
  have e3 : 2 * i + 3 = (2 * i + 1 + 1) + 1 := by omega
  rw [e2, e3]
  simp only [List.getElem?_cons_succ]
  constructor
  · rw [List.getElem?_append_left (by omega), hk.1]
  · rw [List.getElem?_append_left (by omega), hk.2]

theorem calculate_keyframes_core_chain (g : KenBurnsGenerator)
    (h1 : 0 ≤ g.intro_duration) (h2 : 0 ≤ g.snippet_duration)
    (h3 : 0 ≤ g.hold_duration) (h4 : 0 ≤ g.outro_duration) (h5 : 0 ≤ g.fps) :
    List.Chain' (· ≤ ·) ((calculate_keyframes_core g).map Keyframe.frame) := by
  have hfq : (0 : ℚ) ≤ (g.fps : ℚ) := by exact_mod_cast h5
  have hintro : 0 ≤ intro_frames g := pyInt_nonneg (mul_nonneg h1 hfq)
  have htravel : 0 ≤ travel_frames g := pyInt_nonneg (mul_nonneg h2 hfq)
  have houtro : 0 ≤ outro_frames g := pyInt_nonneg (mul_nonneg h4 hfq)
  have hholds : ∀ s ∈ g.snippets, 0 ≤ hold_frames g s := fun _ _ =>
    pyInt_nonneg (mul_nonneg (le_trans h3 (le_max_right _ _)) hfq)
  have hb : (snippet_keyframes g g.snippets (intro_frames g)).2 ≤ final_frame g := by
    rw [snippet_keyframes_snd]
    unfold final_frame
    linarith
  have hchain := snippet_keyframes_chain g htravel g.snippets (intro_frames g)
    (final_frame g) hholds hb
  rw [calculate_keyframes_core_eq]
  simp only [List.map_cons, List.map_append, List.map_cons, List.map_nil]
  exact List.Chain.cons hintro hchain

theorem travel_frames_set_subimages (g : KenBurnsGenerator) (l : List SubImage) :
    travel_frames {g with sub_images := l} = travel_frames g := rfl

theorem hold_frames_set_subimages (g : KenBurnsGenerator) (l : List SubImage)
    (s : Snippet) : hold_frames {g with sub_images := l} s = hold_frames g s := rfl

theorem zoom_clamped_set_subimages (g : KenBurnsGenerator) (l : List SubImage)
    (s : Snippet) : zoom_clamped {g with sub_images := l} s = zoom_clamped g s := rfl

theorem snippet_keyframes_set_subimages (g : KenBurnsGenerator) (l : List SubImage) :
    ∀ (ss : List Snippet) (cur : Int),
      snippet_keyframes {g with sub_images := l} ss cur = snippet_keyframes g ss cur
  | [], _ => rfl
  | s :: rest, cur => by
    simp only [snippet_keyframes, travel_frames_set_subimages,
      hold_frames_set_subimages, zoom_clamped_set_subimages]
    rw [snippet_keyframes_set_subimages g l rest
      (cur + travel_frames g + hold_frames g s)]

/-- The keyframe timeline does not depend on the sub-image overlay list. -/
theorem calculate_keyframes_core_set_subimages (g : KenBurnsGenerator)
    (l : List SubImage) :
    calculate_keyframes_core {g with sub_images := l} = calculate_keyframes_core g := by
  simp only [calculate_keyframes_core]
  rw [snippet_keyframes_set_subimages g l]

/-- `KenBurnsGenerator.get_total_duration`: frame of the last keyframe
divided by fps (0 for an empty keyframe list, which never occurs). -/
def get_total_duration (g : KenBurnsGenerator) : ℚ :=
  match (calculate_keyframes_core g).getLast? with
  | none => 0
  | some k => (k.frame : ℚ) / (g.fps : ℚ)

/-- Hold duration in seconds:
`max(snippet.audio_duration, self.hold_duration)`. -/
def hold_seconds (g : KenBurnsGenerator) (s : Snippet) : ℚ :=
  max s.audio_duration g.hold_duration

/-- Seconds contributed by a list of snippets to the running clock of
`build_ffmpeg_command` (travel plus hold per snippet). -/
def clock_seconds (g : KenBurnsGenerator) (ss : List Snippet) : ℚ :=
  (ss.map (fun s => g.snippet_duration + hold_seconds g s)).sum

/-- Exact frame alignment: every segment length in seconds times fps is an
integer, so frame truncation loses nothing. -/
def FrameAligned (g : KenBurnsGenerator) : Prop :=
  (g.intro_duration * (g.fps : ℚ)).den = 1 ∧
  (g.snippet_duration * (g.fps : ℚ)).den = 1 ∧
  (g.outro_duration * (g.fps : ℚ)).den = 1 ∧
  ∀ s ∈ g.snippets, (max s.audio_duration g.hold_duration * (g.fps : ℚ)).den = 1

theorem clock_frames_cast (g : KenBurnsGenerator)
    (ht : (g.snippet_duration * (g.fps : ℚ)).den = 1) :
    ∀ ss : List Snippet,
      (∀ s ∈ ss, (max s.audio_duration g.hold_duration * (g.fps : ℚ)).den = 1) →
      ((clock_frames g ss : Int) : ℚ) = clock_seconds g ss * (g.fps : ℚ)
  | [], _ => by simp [clock_frames, clock_seconds]
  | s :: rest, h => by
    have hs := h s (List.mem_cons_self s rest)
    have ih := clock_frames_cast g ht rest
      (fun a ha => h a (List.mem_cons_of_mem s ha))
    simp only [clock_frames, clock_seconds, List.map_cons, List.sum_cons,
      step_frames, travel_frames, hold_frames, hold_seconds] at ih ⊢
    push_cast at ih ⊢
    rw [pyInt_den_one_cast ht, pyInt_den_one_cast hs, ih]
    ring

theorem final_frame_cast (g : KenBurnsGenerator) (hal : FrameAligned g) :
    ((final_frame g : Int) : ℚ) =
      (g.intro_duration + g.outro_duration + clock_seconds g g.snippets) *
        (g.fps : ℚ) := by
  obtain ⟨hi, ht, ho, hh⟩ := hal
  unfold final_frame intro_frames outro_frames
  push_cast
  rw [pyInt_den_one_cast hi, pyInt_den_one_cast ho, clock_frames_cast g ht _ hh]
  ring

theorem get_total_duration_eq (g : KenBurnsGenerator) (hal : FrameAligned g)
    (hf : (g.fps : ℚ) ≠ 0) :
    get_total_duration g =
      g.intro_duration + g.outro_duration + clock_seconds g g.snippets := by
  unfold get_total_duration
  rw [calculate_keyframes_core_getLast]
  simp only
  rw [final_frame_cast g hal]
  field_simp

/-- Python truthiness of an optional path combined with `os.path.exists`:
a missing or empty path, or a non-existing file, yields no narration. -/
def has_narration (pe : String → Bool) (p : Option String) : Bool :=
  match p with
  | some s => !s.isEmpty && pe s
  | none => false

/-- One scheduled audio input of the ffmpeg command: file path and `adelay`
delay in milliseconds, `int(start_time * 1000)`. -/
structure AudioEntry where
  path : String
  delay_ms : Int
  deriving DecidableEq

/-- The snippet audio loop of `build_ffmpeg_command`: the running clock `t`
starts at `intro_duration`; per snippet `hold_start = t + snippet_duration`,
a snippet whose audio path is truthy and exists contributes an entry
delayed to `hold_start`, and the clock advances to `hold_end`. -/
def snippet_audio_entries (g : KenBurnsGenerator) (pe : String → Bool) :
    List Snippet → ℚ → List AudioEntry
  | [], _ => []
  | s :: rest, t =>
    let hold_start := t + g.snippet_duration
    let hold_end := hold_start + hold_seconds g s
    let tail := snippet_audio_entries g pe rest hold_end
    match s.audio_path with
    | some p =>
      if !p.isEmpty && pe p then ⟨p, pyInt (hold_start * 1000)⟩ :: tail else tail
    | none => tail

/-- Number of snippets walked by the sub-image start-time loop:
`range(min(after_snip + 1, len(snippets)))`, an empty range when the bound
is not positive. -/
def sub_walk_count (after_snip : Int) (n : Nat) : Nat :=
  (min (after_snip + 1) (n : Int)).toNat

/-- Start time of a sub-image overlay: `intro_duration` plus travel and
hold of each walked snippet. -/
def sub_start_time (g : KenBurnsGenerator) (after_snip : Int) : ℚ :=
  g.intro_duration +
    clock_seconds g (g.snippets.take (sub_walk_count after_snip g.snippets.length))

/-- The sub-image audio pass of `build_ffmpeg_command`: each sub-image
whose audio path is truthy and exists contributes an entry delayed to its
start time. -/
def sub_image_audio_entries (g : KenBurnsGenerator) (pe : String → Bool) :
    List AudioEntry :=
  g.sub_images.filterMap (fun si =>
    match si.audio_path with
    | some p =>
      if !p.isEmpty && pe p then
        some ⟨p, pyInt (sub_start_time g si.after_snip * 1000)⟩
      else none
    | none => none)

/-- All audio inputs of `build_ffmpeg_command` in command order: snippet
narration first, then sub-image narration. -/
def build_audio_schedule (g : KenBurnsGenerator) (pe : String → Bool) :
    List AudioEntry :=
  snippet_audio_entries g pe g.snippets g.intro_duration ++
    sub_image_audio_entries g pe

/-- The running-clock value at the start of snippet `i`'s hold segment:
intro, plus travel and hold of every earlier snippet, plus travel. -/
def audio_hold_start (g : KenBurnsGenerator) (i : Nat) : ℚ :=
  g.intro_duration + clock_seconds g (g.snippets.take i) + g.snippet_duration

theorem snippet_audio_entries_mem (g : KenBurnsGenerator) (pe : String → Bool) :
    ∀ (ss : List Snippet) (t : ℚ) (i : Nat) (s : Snippet) (p : String),
      ss[i]? = some s → s.audio_path = some p → (!p.isEmpty && pe p) = true →
      (⟨p, pyInt ((t + clock_seconds g (ss.take i) + g.snippet_duration) * 1000)⟩ :
          AudioEntry) ∈ snippet_audio_entries g pe ss t
  | [], _, i, s, p, h, _, _ => by simp at h
  | a :: rest, t, 0, s, p, h, hp, he => by
    simp only [List.getElem?_cons_zero, Option.some.injEq] at h
    subst h
    rw [show t + clock_seconds g ((a :: rest).take 0) + g.snippet_duration =
      t + g.snippet_duration by simp [clock_seconds]]
    simp only [snippet_audio_entries, hp, he, if_true]
    exact List.mem_cons_self _ _
  | a :: rest, t, i + 1, s, p, h, hp, he => by
    have h' : rest[i]? = some s := by simpa using h
    have ih := snippet_audio_entries_mem g pe rest
      (t + g.snippet_duration + hold_seconds g a) i s p h' hp he
    have harith : t + g.snippet_duration + hold_seconds g a +
        clock_seconds g (rest.take i) + g.snippet_duration =
        t + clock_seconds g ((a :: rest).take (i + 1)) + g.snippet_duration := by
      rw [show (a :: rest).take (i + 1) = a :: rest.take i from rfl]
      simp only [clock_seconds, List.map_cons, List.sum_cons]
      ring
    rw [harith] at ih
    cases hap : a.audio_path with
    | none => simpa only [snippet_audio_entries, hap] using ih
    | some q =>
      simp only [snippet_audio_entries, hap]
      by_cases hq : (!q.isEmpty && pe q) = true
      · rw [if_pos hq]
        exact List.mem_cons_of_mem _ ih
      · rw [if_neg hq]
        exact ih

theorem snippet_audio_entries_length (g : KenBurnsGenerator) (pe : String → Bool) :
    ∀ (ss : List Snippet) (t : ℚ),
      (snippet_audio_entries g pe ss t).length =
        ss.countP (fun s => has_narration pe s.audio_path)
  | [], _ => rfl
  | a :: rest, t => by
    have ih := snippet_audio_entries_length g pe rest
      (t + g.snippet_duration + hold_seconds g a)
    cases hap : a.audio_path with
    | none =>
      simp only [snippet_audio_entries, hap]
      rw [ih, List.countP_cons]
      simp [has_narration, hap]
    | some q =>
      by_cases hq : (!q.isEmpty && pe q) = true
      · simp only [snippet_audio_entries, hap, if_pos hq, List.length_cons]
        rw [ih, List.countP_cons]
        simp [has_narration, hap, hq]
      · simp only [snippet_audio_entries, hap, if_neg hq]
        rw [ih, List.countP_cons]
        simp [has_narration, hap, hq]

theorem sub_image_audio_entries_length (g : KenBurnsGenerator) (pe : String → Bool) :
    (sub_image_audio_entries g pe).length =
      g.sub_images.countP (fun si => has_narration pe si.audio_path) := by
  unfold sub_image_audio_entries
  induction g.sub_images with
  | nil => rfl
  | cons a l ih =>
    cases hap : a.audio_path with
    | none =>
      simp only [List.filterMap_cons, hap]
      rw [ih, List.countP_cons]
      simp [has_narration, hap]
    | some q =>
      by_cases hq : (!q.isEmpty && pe q) = true
      · simp only [List.filterMap_cons, hap, if_pos hq, List.length_cons]
        rw [ih, List.countP_cons]
        simp [has_narration, hap, hq]
      · simp only [List.filterMap_cons, hap, if_neg hq]
        rw [ih, List.countP_cons]
        simp [has_narration, hap, hq]

theorem sub_walk_count_neg (a : Int) (n : Nat) (h : a < 0) :
    sub_walk_count a n = 0 := by
  unfold sub_walk_count
  omega

theorem sub_walk_count_ge (a : Int) (n : Nat) (h : (n : Int) ≤ a) :
    sub_walk_count a n = n := by
  unfold sub_walk_count
  omega

theorem sub_walk_count_le (a : Int) (n : Nat) : sub_walk_count a n ≤ n := by
  unfold sub_walk_count
  omega

theorem sub_start_time_neg (g : KenBurnsGenerator) (a : Int) (h : a < 0) :
    sub_start_time g a = g.intro_duration := by
  unfold sub_start_time
  rw [sub_walk_count_neg a _ h]
  simp [clock_seconds]

theorem sub_start_time_ge (g : KenBurnsGenerator) (a : Int)
    (h : (g.snippets.length : Int) ≤ a) :
    sub_start_time g a = g.intro_duration + clock_seconds g g.snippets := by
  unfold sub_start_time
  rw [sub_walk_count_ge _ _ h, List.take_length]

theorem sub_walk_covers (g : KenBurnsGenerator) (a : Int) :
    (g.snippets.take (sub_walk_count a g.snippets.length)).length =
      sub_walk_count a g.snippets.length := by
  rw [List.length_take]
  exact min_eq_left (sub_walk_count_le a g.snippets.length)

/-- Outcome of `KenBurnsGenerator.generate`: either the early refusal
`(False, "No snippets defined. ...")` or a started ffmpeg run, carrying the
audio schedule the built command encodes (running ffmpeg itself is
external I/O). -/
inductive GenOutcome
  | failure (msg : String)
  | started (schedule : List AudioEntry)
  deriving DecidableEq

/-- `KenBurnsGenerator.generate`: refuses before building any command when
the snippet list is empty, whatever the sub-image list holds. -/
def generate (g : KenBurnsGenerator) (pe : String → Bool) : GenOutcome :=
  if g.snippets.isEmpty then
    GenOutcome.failure ("No snippets defined. Create at least one snippet first.")
  else
    GenOutcome.started (build_audio_schedule g pe)

/-- One interpolation segment of `_build_zoom_expression`: a consecutive
keyframe pair with its frame bounds and zoom endpoints.  Pairs with
`frame_diff == 0` are skipped (`continue` in the source), so every segment
that reaches the emitted ffmpeg expression has a nonzero frame span. -/
structure Segment where
  f1 : Int
  f2 : Int
  z1 : ℚ
  z2 : ℚ
  deriving DecidableEq

/-- The numeric content of `_build_zoom_expression`: the per-segment data
over consecutive keyframe pairs, with zero-length segments dropped; the
string assembly around it carries no further arithmetic. -/
def zoom_segments (ks : List Keyframe) : List Segment :=
  (ks.zip ks.tail).filterMap (fun p =>
    if p.2.frame - p.1.frame = 0 then none
    else some ⟨p.1.frame, p.2.frame, p.1.zoom, p.2.zoom⟩)

theorem zoom_segments_nonzero (ks : List Keyframe) :
    ∀ seg ∈ zoom_segments ks, seg.f2 - seg.f1 ≠ 0 := by
  intro seg h
  unfold zoom_segments at h
  rw [List.mem_filterMap] at h
  obtain ⟨p, _, hp⟩ := h
  by_cases hz : p.2.frame - p.1.frame = 0
  · rw [if_pos hz] at hp
    exact Option.noConfusion hp
  · rw [if_neg hz] at hp
    injection hp with hp
    subst hp
    exact hz

/-- Modelled from the spec: `visible_rect` of the Geometry and Zoom Solver
(spec 4.1).  The frame-rendering code computing this rectangle is not
present under `src/`: in the ffmpeg-expression variant the crop itself is
performed by the external `zoompan` filter, the repository code only
emitting the camera-center expressions.  Following the spec's words, the
rectangle of size `(image_w/zoom, image_h/zoom)` centered on the camera is
shifted back inside `[0,image_w]x[0,image_h]` (preserving its size), and is
truncated to the image bounds only when the image itself is smaller than
the viewport. -/
def visible_rect (center_x center_y zoom image_w image_h : ℚ) :
    ℚ × ℚ × ℚ × ℚ :=
  let vw := image_w / zoom
  let vh := image_h / zoom
  let left := if vw ≤ image_w then max 0 (min (center_x - vw / 2) (image_w - vw)) else 0
  let top := if vh ≤ image_h then max 0 (min (center_y - vh / 2) (image_h - vh)) else 0
  let right := if vw ≤ image_w then left + vw else image_w
  let bottom := if vh ≤ image_h then top + vh else image_h
  (left, top, right, bottom)

/-- The snippet of the end-to-end example of spec section 8: region
200x150 at (100,100) with 4 s of narration. -/
def exSnippet : Snippet :=
  { x := 100, y := 100, width := 200, height := 150,
    audio_path := some ("n.mp3"), audio_duration := 4 }

/-- The end-to-end example of spec section 8: 1920x1080 image, intro =
outro = 2 s, travel = 3 s, hold floor = 1 s, zoom range [1, 4], 30 fps. -/
def exGenerator : KenBurnsGenerator :=
  mkGenerator 1920 1080 [exSnippet] [] 30 2 3 1 2 1 4 true

/-- Path-existence oracle granting every path. -/
def peAll : String → Bool := fun _ => true

/-- A sub-image overlay target with 4 s of narration. -/
def exSubImage : SubImage :=
  { after_snip := 0, audio_path := some ("o.mp3"), audio_duration := 4,
    image_path := some ("o.png") }

/-- The spec example extended with one overlay target. -/
def exOverlayGenerator : KenBurnsGenerator :=
  mkGenerator 1920 1080 [exSnippet] [exSubImage] 30 2 3 1 2 1 4 true

/-- A narrated snippet used with a fractional travel duration. -/
def fracSnippet : Snippet :=
  { x := 100, y := 100, width := 20, height := 20,
    audio_path := some ("a.mp3"), audio_duration := 0 }

/-- Generator with travel duration 0.01 s at 30 fps, so travel times fps
(= 0.3) is not a whole number of frames. -/
def fracGenerator : KenBurnsGenerator :=
  mkGenerator 1920 1080 [fracSnippet] [] 30 2 (1 / 100) 1 2 1 4 true

/-- A region with zero width. -/
def zeroSnippet : Snippet := { x := 0, y := 0, width := 0, height := 50 }

/-- Generator with no snippets but one overlay sub-image. -/
def emptyOverlayGenerator : KenBurnsGenerator :=
  mkGenerator 1920 1080 [] [exSubImage] 30 2 3 1 2 1 4 true

/-- Generator with ken_burns disabled and a fractional hold floor of
1.03 s at 30 fps: the hold segment truncates to int(1.03*30) = 30 frames,
i.e. 1.0 s of video. -/
def holdFloorGenerator : KenBurnsGenerator :=
  mkGenerator 1920 1080 [fracSnippet] [] 30 2 3 (103 / 100) 2 1 4 false

/-- C1 counterexample: with one snippet and one overlay target the
computed timeline has 5 keyframes, not the 2 + 2·1 + 2·1 + 1 = 7 the claim
requires — overlay targets contribute no travel/hold keyframe pair. -/
theorem c1_counterexample :
    (calculate_keyframes_core exOverlayGenerator).length = 5 ∧
    2 + 2 * exOverlayGenerator.snippets.length +
      2 * exOverlayGenerator.sub_images.length + 1 = 7 ∧
    (5 : Nat) ≠ 7 := by
  refine ⟨?_, by rfl, by decide⟩
  rw [calculate_keyframes_core_length]
  rfl

/-- C1 (amended): the timeline ignores the overlay-target list entirely:
it consists of the intro keyframe pair at zoom 1 and image center, one
travel plus one hold keyframe per snippet in input order, and one final
outro keyframe (2·#snippets + 3 keyframes in total); with non-negative
durations and fps, keyframe frames are non-decreasing, and the first and
last keyframes have zoom 1 and center equal to the image center. -/
theorem c1_amended_timeline_shape (g : KenBurnsGenerator)
    (h1 : 0 ≤ g.intro_duration) (h2 : 0 ≤ g.snippet_duration)
    (h3 : 0 ≤ g.hold_duration) (h4 : 0 ≤ g.outro_duration) (h5 : 0 ≤ g.fps)
    (h6 : ∀ s ∈ g.snippets, s.width ≠ 0 ∧ s.height ≠ 0) :
    calculate_keyframes g = Except.ok (calculate_keyframes_core g) ∧
    (∀ l : List SubImage,
      calculate_keyframes_core {g with sub_images := l} =
        calculate_keyframes_core g) ∧
    (calculate_keyframes_core g).length = 2 * g.snippets.length + 3 ∧
    (calculate_keyframes_core g)[0]? =
      some ⟨0, 1, image_center_x g, image_center_y g⟩ ∧
    (calculate_keyframes_core g)[1]? =
      some ⟨intro_frames g, 1, image_center_x g, image_center_y g⟩ ∧
    (calculate_keyframes_core g).getLast? =
      some ⟨final_frame g, 1, image_center_x g, image_center_y g⟩ ∧
    (∀ (i : Nat) (s : Snippet), g.snippets[i]? = some s →
      (calculate_keyframes_core g)[2 * i + 2]? =
        some ⟨intro_frames g + clock_frames g (g.snippets.take i) +
          travel_frames g, zoom_clamped g s,
          snippet_center_x s, snippet_center_y s⟩ ∧
      (calculate_keyframes_core g)[2 * i + 3]? =
        some ⟨intro_frames g + clock_frames g (g.snippets.take (i + 1)),
          zoom_clamped g s, snippet_center_x s, snippet_center_y s⟩) ∧
    List.Chain' (· ≤ ·) ((calculate_keyframes_core g).map Keyframe.frame) := by
  refine ⟨?_, calculate_keyframes_core_set_subimages g,
    calculate_keyframes_core_length g, calculate_keyframes_core_head g, ?_,
    calculate_keyframes_core_getLast g,
    fun i s hs => calculate_keyframes_core_get g i s hs,
    calculate_keyframes_core_chain g h1 h2 h3 h4 h5⟩
  · unfold calculate_keyframes
    rw [if_neg]
    simp only [List.any_eq_true, Bool.or_eq_true, beq_iff_eq, not_exists,
      not_and, not_or]
    intro s hs
    exact ⟨(h6 s hs).1, (h6 s hs).2⟩
  · rw [calculate_keyframes_core_eq]
    simp

/-- C1 witness: the amended shape theorem applied to the one-snippet,
one-overlay example generator. -/
theorem c1_amended_timeline_shape_witness :
    (calculate_keyframes_core exOverlayGenerator).length =
      2 * exOverlayGenerator.snippets.length + 3 ∧
    List.Chain' (· ≤ ·)
      ((calculate_keyframes_core exOverlayGenerator).map Keyframe.frame) := by
  have h := c1_amended_timeline_shape exOverlayGenerator (by decide) (by decide)
    (by decide) (by decide) (by decide) (by decide)
  exact ⟨h.2.2.1, h.2.2.2.2.2.2.2⟩

/-- C2 counterexample: with travel = 0.01 s at 30 fps the snippet's audio
is delayed 2010 ms (running clock 2.01 s) while the hold-start keyframe
sits at frame 60, i.e. 60/30 = 2 s: the scheduled start time does not
equal the keyframe time, because keyframes quantize each segment to whole
frames while the audio clock does not. -/
theorem c2_counterexample :
    build_audio_schedule fracGenerator peAll = [⟨"a.mp3", 2010⟩] ∧
    (calculate_keyframes_core fracGenerator)[2]? = some ⟨60, 4, 110, 110⟩ ∧
    ((2010 : ℚ) / 1000) ≠ ((60 : ℚ) / 30) := by
  refine ⟨?_, ?_, by norm_num⟩
  · norm_num [build_audio_schedule, snippet_audio_entries,
      sub_image_audio_entries, fracGenerator, mkGenerator, fracSnippet, peAll,
      pyInt, hold_seconds]
    decide
  · norm_num [calculate_keyframes_core, snippet_keyframes, fracGenerator,
      mkGenerator, fracSnippet, pyInt, zoom_clamped, travel_frames,
      hold_frames, hold_seconds, snippet_center_x, snippet_center_y]
    decide

/-- C2 (amended): the audio scheduler replays the un-quantized running
clock: every snippet with existing narration is scheduled with delay
`int(start · 1000)` ms where `start = intro + Σ earlier (travel + hold) +
travel` — the clock value at the start of its hold; a target (snippet or
sub-image) without narration contributes no entry; and the hold-start
keyframe's time `frame / fps` equals that clock value whenever every
segment duration times fps is a whole number of frames (exact frame
alignment), the spec's example being aligned with start 5.0 s. -/
theorem c2_amended_schedule_lockstep (g : KenBurnsGenerator)
    (pe : String → Bool) (hal : FrameAligned g) (hf : 0 < g.fps) :
    (∀ (i : Nat) (s : Snippet) (p : String), g.snippets[i]? = some s →
      s.audio_path = some p → (!p.isEmpty && pe p) = true →
      (⟨p, pyInt (audio_hold_start g i * 1000)⟩ : AudioEntry) ∈
        build_audio_schedule g pe) ∧
    (build_audio_schedule g pe).length =
      g.snippets.countP (fun s => has_narration pe s.audio_path) +
        g.sub_images.countP (fun si => has_narration pe si.audio_path) ∧
    (∀ (i : Nat) (s : Snippet) (k : Keyframe), g.snippets[i]? = some s →
      (calculate_keyframes_core g)[2 * i + 2]? = some k →
      (k.frame : ℚ) / (g.fps : ℚ) = audio_hold_start g i) := by
  obtain ⟨hi, ht, ho, hh⟩ := hal
  have hfq : ((g.fps : ℚ)) ≠ 0 := by
    have : (0 : ℚ) < (g.fps : ℚ) := by exact_mod_cast hf
    exact ne_of_gt this
  refine ⟨?_, ?_, ?_⟩
  · intro i s p hs hp he
    unfold build_audio_schedule
    exact List.mem_append_left _
      (snippet_audio_entries_mem g pe g.snippets g.intro_duration i s p hs hp he)
  · unfold build_audio_schedule
    rw [List.length_append, snippet_audio_entries_length,
      sub_image_audio_entries_length]
  · intro i s k hs hk
    rw [(calculate_keyframes_core_get g i s hs).1] at hk
    have hke := Option.some.inj hk
    subst hke
    simp only
    have hsub : ∀ a ∈ g.snippets.take i,
        (max a.audio_duration g.hold_duration * (g.fps : ℚ)).den = 1 :=
      fun a ha => hh a (List.take_subset i g.snippets ha)
    unfold audio_hold_start intro_frames travel_frames
    push_cast
    rw [pyInt_den_one_cast hi, pyInt_den_one_cast ht,
      clock_frames_cast g ht _ hsub]
    field_simp
    ring

/-- C2 witness: on the spec's end-to-end example the single narration is
scheduled at 5000 ms = 5.0 s, matching `audio_hold_start = 5`. -/
theorem c2_amended_schedule_lockstep_witness :
    (⟨"n.mp3", 5000⟩ : AudioEntry) ∈ build_audio_schedule exGenerator peAll ∧
    audio_hold_start exGenerator 0 = 5 := by
  have h5 : audio_hold_start exGenerator 0 = 5 := by
    norm_num [audio_hold_start, clock_seconds, exGenerator, mkGenerator]
  have hal : FrameAligned exGenerator := by
    norm_num [FrameAligned, exGenerator, mkGenerator, exSnippet]
  have h := c2_amended_schedule_lockstep exGenerator peAll hal (by decide)
  have hm := h.1 0 exSnippet "n.mp3" (by rfl) (by rfl) (by decide)
  rw [h5] at hm
  rw [show pyInt ((5 : ℚ) * 1000) = 5000 by norm_num [pyInt]] at hm
  exact ⟨hm, h5⟩

/-- C3: for every camera center and positive zoom the visible rectangle is
fully contained in `[0,image_w]x[0,image_h]`, and whenever the viewport
fits in the image (in particular for every zoom ≥ 1) the rectangle keeps
the requested size `image_w/zoom` by `image_h/zoom` — it is shifted back
inside the image, not shrunk by clamping. -/
theorem c3_visible_rect_contained (center_x center_y zoom image_w image_h : ℚ)
    (hz : 0 < zoom) (hw : 0 ≤ image_w) (hh : 0 ≤ image_h) :
    0 ≤ (visible_rect center_x center_y zoom image_w image_h).1 ∧
    (visible_rect center_x center_y zoom image_w image_h).1 ≤
      (visible_rect center_x center_y zoom image_w image_h).2.2.1 ∧
    (visible_rect center_x center_y zoom image_w image_h).2.2.1 ≤ image_w ∧
    0 ≤ (visible_rect center_x center_y zoom image_w image_h).2.1 ∧
    (visible_rect center_x center_y zoom image_w image_h).2.1 ≤
      (visible_rect center_x center_y zoom image_w image_h).2.2.2 ∧
    (visible_rect center_x center_y zoom image_w image_h).2.2.2 ≤ image_h ∧
    (1 ≤ zoom →
      (visible_rect center_x center_y zoom image_w image_h).2.2.1 -
        (visible_rect center_x center_y zoom image_w image_h).1 =
          image_w / zoom ∧
      (visible_rect center_x center_y zoom image_w image_h).2.2.2 -
        (visible_rect center_x center_y zoom image_w image_h).2.1 =
          image_h / zoom) := by
  have hvw : 0 ≤ image_w / zoom := div_nonneg hw hz.le
  have hvh : 0 ≤ image_h / zoom := div_nonneg hh hz.le
  have hzw : 1 ≤ zoom → image_w / zoom ≤ image_w := fun h1 => div_le_self hw h1
  have hzh : 1 ≤ zoom → image_h / zoom ≤ image_h := fun h1 => div_le_self hh h1
  unfold visible_rect
  by_cases hcw : image_w / zoom ≤ image_w <;>
    by_cases hch : image_h / zoom ≤ image_h <;>
      simp only [hcw, hch, if_true, if_false]
  · have hlw : max 0 (min (center_x - image_w / zoom / 2) (image_w - image_w / zoom)) ≤
        image_w - image_w / zoom :=
      max_le (by linarith) (min_le_right _ _)
    have hlh : max 0 (min (center_y - image_h / zoom / 2) (image_h - image_h / zoom)) ≤
        image_h - image_h / zoom :=
      max_le (by linarith) (min_le_right _ _)
    refine ⟨le_max_left 0 _, by linarith, by linarith, le_max_left 0 _,
      by linarith, by linarith, fun _ => ⟨by ring, by ring⟩⟩
  · have hlw : max 0 (min (center_x - image_w / zoom / 2) (image_w - image_w / zoom)) ≤
        image_w - image_w / zoom :=
      max_le (by linarith) (min_le_right _ _)
    refine ⟨le_max_left 0 _, by linarith, by linarith, le_refl 0, hh, le_refl _,
      fun h1 => absurd (hzh h1) hch⟩
  · have hlh : max 0 (min (center_y - image_h / zoom / 2) (image_h - image_h / zoom)) ≤
        image_h - image_h / zoom :=
      max_le (by linarith) (min_le_right _ _)
    refine ⟨le_refl 0, hw, le_refl _, le_max_left 0 _, by linarith, by linarith,
      fun h1 => absurd (hzw h1) hcw⟩
  · exact ⟨le_refl 0, hw, le_refl _, le_refl 0, hh, le_refl _,
      fun h1 => absurd (hzw h1) hcw⟩

/-- C3 witness: the containment and size-preservation theorem applied at
center (0,0), zoom 2, on a 1920x1080 image. -/
theorem c3_visible_rect_contained_witness :
    0 ≤ (visible_rect 0 0 2 1920 1080).1 ∧
    (visible_rect 0 0 2 1920 1080).2.2.1 ≤ 1920 ∧
    (visible_rect 0 0 2 1920 1080).2.2.1 - (visible_rect 0 0 2 1920 1080).1 =
      1920 / 2 := by
  have h := c3_visible_rect_contained 0 0 2 1920 1080 (by decide) (by decide)
    (by decide)
  exact ⟨h.1, h.2.2.1, (h.2.2.2.2.2.2 (by decide)).1⟩

/-- C4 counterexample: a region of width 0 makes the zoom computation
raise Python's `ZeroDivisionError` — it does not fail with the spec's
`InvalidRegion`. -/
theorem c4_counterexample :
    calculate_zoom_for_snippet exGenerator zeroSnippet =
      Except.error CalcError.zeroDivision ∧
    calculate_zoom_for_snippet exGenerator zeroSnippet ≠
      Except.error CalcError.invalidRegion := by
  have h : calculate_zoom_for_snippet exGenerator zeroSnippet =
      Except.error CalcError.zeroDivision := by
    unfold calculate_zoom_for_snippet
    rw [if_pos]
    exact Or.inl rfl
  refine ⟨h, ?_⟩
  rw [h]
  intro hcon
  exact CalcError.noConfusion (Except.error.inj hcon)

/-- C4 (amended): a region with zero width or height fails with a
division-by-zero error (never with `InvalidRegion`, which no code path
produces), while a region with nonzero — including negative — width and
height is not rejected at all: the computation returns the clamped zoom
value. -/
theorem c4_amended_zero_region_division (g : KenBurnsGenerator) (s : Snippet) :
    ((s.width = 0 ∨ s.height = 0) →
      calculate_zoom_for_snippet g s = Except.error CalcError.zeroDivision) ∧
    (s.width ≠ 0 → s.height ≠ 0 →
      calculate_zoom_for_snippet g s = Except.ok (zoom_clamped g s)) ∧
    calculate_zoom_for_snippet g s ≠ Except.error CalcError.invalidRegion := by
  refine ⟨?_, calculate_zoom_ok g s, ?_⟩
  · intro h
    unfold calculate_zoom_for_snippet
    rw [if_pos h]
  · unfold calculate_zoom_for_snippet
    by_cases h : s.width = 0 ∨ s.height = 0
    · rw [if_pos h]
      intro hcon
      exact CalcError.noConfusion (Except.error.inj hcon)
    · rw [if_neg h]
      intro hcon
      exact Except.noConfusion hcon

/-- C4 witness: the amended theorem applied to the width-0 region (division
by zero) and to the spec example's region (clamped zoom returned). -/
theorem c4_amended_zero_region_division_witness :
    calculate_zoom_for_snippet exGenerator zeroSnippet =
      Except.error CalcError.zeroDivision ∧
    calculate_zoom_for_snippet exGenerator exSnippet =
      Except.ok (zoom_clamped exGenerator exSnippet) := by
  exact ⟨(c4_amended_zero_region_division exGenerator zeroSnippet).1
      (Or.inl (by decide)),
    (c4_amended_zero_region_division exGenerator exSnippet).2.1 (by decide)
      (by decide)⟩

/-- C5 counterexample: when the dimension probe fails, construction does
not fail — `_get_image_dimensions` returns the substitute 1920x1080 and
the engine goes on to build a full timeline from it. -/
theorem c5_counterexample :
    get_image_dimensions none = (1920, 1080) ∧
    (mkGeneratorFromProbe none [exSnippet] [] 30 2 3 1 2 1 4 true).image_width =
      1920 ∧
    (mkGeneratorFromProbe none [exSnippet] [] 30 2 3 1 2 1 4 true).image_height =
      1080 ∧
    (calculate_keyframes_core
      (mkGeneratorFromProbe none [exSnippet] [] 30 2 3 1 2 1 4 true)).length = 5 := by
  refine ⟨rfl, rfl, rfl, ?_⟩
  rw [calculate_keyframes_core_length]
  rfl

/-- C5 (amended): engine construction never fails on a missing or
unreadable source image: a successful probe is used as-is, and a failed
probe falls back to the placeholder dimensions 1920x1080 (with a printed
warning), after which the engine still builds its full
`2·#snippets + 3`-keyframe timeline. -/
theorem c5_amended_probe_fallback (snippets : List Snippet)
    (subs : List SubImage) (fps : Int) (intro travel hold outro mn mx : ℚ)
    (kb : Bool) :
    (∀ w h : Int,
      mkGeneratorFromProbe (some (w, h)) snippets subs fps intro travel hold
          outro mn mx kb =
        mkGenerator w h snippets subs fps intro travel hold outro mn mx kb) ∧
    mkGeneratorFromProbe none snippets subs fps intro travel hold outro mn mx
        kb =
      mkGenerator 1920 1080 snippets subs fps intro travel hold outro mn mx
        kb ∧
    (calculate_keyframes_core (mkGeneratorFromProbe none snippets subs fps
      intro travel hold outro mn mx kb)).length = 2 * snippets.length + 3 := by
  refine ⟨fun w h => rfl, rfl, ?_⟩
  rw [calculate_keyframes_core_length]
  rfl

/-- C6: for every region with positive width and height the snippet zoom
is `clamp(min(image_w·0.8/region_w, image_h·0.8/region_h), min_zoom,
max_zoom)`, and (for `min_zoom ≤ max_zoom`) the result always lies in
`[min_zoom, max_zoom]`. -/
theorem c6_zoom_to_fit_clamped (g : KenBurnsGenerator) (s : Snippet)
    (hw : 0 < s.width) (hh : 0 < s.height) (hmm : g.min_zoom ≤ g.max_zoom) :
    calculate_zoom_for_snippet g s =
      Except.ok (max g.min_zoom (min g.max_zoom
        (min (((g.image_width : ℚ) * (4 / 5)) / (s.width : ℚ))
          (((g.image_height : ℚ) * (4 / 5)) / (s.height : ℚ))))) ∧
    g.min_zoom ≤ zoom_clamped g s ∧ zoom_clamped g s ≤ g.max_zoom := by
  refine ⟨calculate_zoom_ok g s (ne_of_gt hw) (ne_of_gt hh), le_max_left _ _, ?_⟩
  exact max_le hmm (min_le_left _ _)

/-- C6 witness: on the spec's example (1920x1080 image, 200x150 region)
the unclamped fit `min(7.68, 5.76) = 5.76 = 144/25` is clamped to 4. -/
theorem c6_zoom_to_fit_clamped_witness :
    calculate_zoom_for_snippet exGenerator exSnippet = Except.ok 4 ∧
    min (((1920 : ℚ) * (4 / 5)) / 200) (((1080 : ℚ) * (4 / 5)) / 150) =
      144 / 25 := by
  have h := c6_zoom_to_fit_clamped exGenerator exSnippet (by decide) (by decide)
    (by decide)
  constructor
  · rw [h.1]
    norm_num [exGenerator, mkGenerator, exSnippet]
  · norm_num

/-- C7 counterexample: with one snippet (narration 4 s) and one overlay
target (narration 4 s), intro = outro = 2, travel = 3, hold floor = 1, the
claimed formula sums over snippets and overlays to 18 s, but the code's
total duration is 11 s — overlay targets contribute nothing to the
timeline. -/
theorem c7_counterexample :
    get_total_duration exOverlayGenerator = 11 ∧
    exOverlayGenerator.intro_duration + exOverlayGenerator.outro_duration +
      ((exOverlayGenerator.snippets.map (fun s =>
          exOverlayGenerator.snippet_duration +
            max s.audio_duration exOverlayGenerator.hold_duration)).sum +
        (exOverlayGenerator.sub_images.map (fun si =>
          exOverlayGenerator.snippet_duration +
            max si.audio_duration exOverlayGenerator.hold_duration)).sum) =
      18 ∧
    (11 : ℚ) ≠ 18 := by
  refine ⟨?_, ?_, by norm_num⟩
  · norm_num [get_total_duration, calculate_keyframes_core, snippet_keyframes,
      exOverlayGenerator, mkGenerator, exSnippet, pyInt, zoom_clamped,
      travel_frames, hold_frames, hold_seconds]
  · norm_num [exOverlayGenerator, mkGenerator, exSnippet, exSubImage]

/-- C7 (amended): under exact frame alignment the total video duration is
`intro + outro + Σ over snippets only of (travel + max(hold_floor,
narration_i))`; each snippet's hold lasts `max(narration, hold_floor)`
seconds, so snippet narration is never truncated, but overlay targets add
nothing to the duration. -/
theorem c7_amended_total_duration (g : KenBurnsGenerator)
    (hal : FrameAligned g) (hf : 0 < g.fps) :
    get_total_duration g =
      g.intro_duration + g.outro_duration +
        (g.snippets.map (fun s =>
          g.snippet_duration + max s.audio_duration g.hold_duration)).sum := by
  have hfq : ((g.fps : ℚ)) ≠ 0 := by
    have : (0 : ℚ) < (g.fps : ℚ) := by exact_mod_cast hf
    exact ne_of_gt this
  rw [get_total_duration_eq g hal hfq]
  simp [clock_seconds, hold_seconds]

/-- C7 witness: on the spec's example the amended formula gives
`2 + 2 + (3 + max 4 1) = 11` seconds. -/
theorem c7_amended_total_duration_witness :
    get_total_duration exGenerator = 11 := by
  have hal : FrameAligned exGenerator := by
    norm_num [FrameAligned, exGenerator, mkGenerator, exSnippet]
  have h := c7_amended_total_duration exGenerator hal (by decide)
  rw [h]
  norm_num [exGenerator, mkGenerator, exSnippet]

/-- C8: with zero snippets `generate` refuses to proceed — it returns the
failure `(False, "No snippets defined. ...")` (the spec's `EmptyTimeline`)
before any command is built, for every sub-image list, so overlays alone
cannot start a render. -/
theorem c8_empty_snippets_refusal (g : KenBurnsGenerator)
    (pe : String → Bool) (h : g.snippets = []) :
    generate g pe =
      GenOutcome.failure
        ("No snippets defined. Create at least one snippet first.") := by
  unfold generate
  rw [h]
  rfl

/-- C8 witness: the refusal on a generator with no snippets but a
non-empty overlay list. -/
theorem c8_empty_snippets_refusal_witness :
    generate emptyOverlayGenerator peAll =
      GenOutcome.failure
        ("No snippets defined. Create at least one snippet first.") ∧
    emptyOverlayGenerator.sub_images ≠ [] :=
  ⟨c8_empty_snippets_refusal emptyOverlayGenerator peAll rfl, by decide⟩

/-- C9 counterexample: with ken_burns disabled, hold floor 1.03 s and a
0 s narration at 30 fps, the snippet's hold runs from frame 0 to frame 30
(intro and travel are zeroed), i.e. (30 - 0)/30 = 1.0 s of video — less
than the 1.03 s hold floor, so a hold does not always last at least
`hold_floor`: the keyframe clock truncates it to whole frames. -/
theorem c9_counterexample :
    holdFloorGenerator.hold_duration = 103 / 100 ∧
    (calculate_keyframes_core holdFloorGenerator)[2]? = some ⟨0, 4, 110, 110⟩ ∧
    (calculate_keyframes_core holdFloorGenerator)[3]? =
      some ⟨30, 4, 110, 110⟩ ∧
    (((30 : ℚ) - 0) / 30) < 103 / 100 := by
  refine ⟨by norm_num [holdFloorGenerator, mkGenerator], ?_, ?_, by norm_num⟩ <;>
    (norm_num [calculate_keyframes_core, snippet_keyframes, holdFloorGenerator,
      mkGenerator, fracSnippet, pyInt, zoom_clamped, travel_frames,
      hold_frames, hold_seconds, snippet_center_x, snippet_center_y]
     decide)

/-- C9 (amended): constructing with ken_burns disabled zeroes the intro,
travel and outro durations while keeping the hold duration; the timeline
has exactly the same number of keyframes as the enabled case on the same
inputs; each hold lasts `int(max(narration, hold_floor)·fps)` frames,
which is at least `hold_floor` seconds whenever the hold duration times
fps is a whole number of frames (exact frame alignment — otherwise frame
truncation can cut it short of the floor, as the counterexample shows);
and every interpolation segment that reaches the zoom expression has a
nonzero frame span (zero-duration segments are skipped), so the
degenerate travel segments cause no division by zero. -/
theorem c9_ken_burns_disabled (iw ihh : Int) (snips : List Snippet)
    (subs : List SubImage) (fps : Int) (intro travel hold outro mn mx : ℚ)
    (hfps : 0 < fps)
    (hden : ∀ s ∈ snips, (max s.audio_duration hold * (fps : ℚ)).den = 1) :
    (mkGenerator iw ihh snips subs fps intro travel hold outro mn mx
        false).intro_duration = 0 ∧
    (mkGenerator iw ihh snips subs fps intro travel hold outro mn mx
        false).snippet_duration = 0 ∧
    (mkGenerator iw ihh snips subs fps intro travel hold outro mn mx
        false).outro_duration = 0 ∧
    (mkGenerator iw ihh snips subs fps intro travel hold outro mn mx
        false).hold_duration = hold ∧
    (calculate_keyframes_core (mkGenerator iw ihh snips subs fps intro travel
        hold outro mn mx false)).length =
      (calculate_keyframes_core (mkGenerator iw ihh snips subs fps intro
        travel hold outro mn mx true)).length ∧
    (∀ s ∈ snips, hold ≤
      ((hold_frames (mkGenerator iw ihh snips subs fps intro travel hold outro
        mn mx false) s : Int) : ℚ) / (fps : ℚ)) ∧
    (∀ seg ∈ zoom_segments (calculate_keyframes_core (mkGenerator iw ihh snips
        subs fps intro travel hold outro mn mx false)),
      seg.f2 - seg.f1 ≠ 0) := by
  have hfq : ((fps : ℚ)) ≠ 0 := by
    have : (0 : ℚ) < (fps : ℚ) := by exact_mod_cast hfps
    exact ne_of_gt this
  refine ⟨rfl, rfl, rfl, rfl, ?_, ?_, ?_⟩
  · rw [calculate_keyframes_core_length, calculate_keyframes_core_length]
    rfl
  · intro s hs
    have he : hold_frames (mkGenerator iw ihh snips subs fps intro travel hold
        outro mn mx false) s = pyInt (max s.audio_duration hold * (fps : ℚ)) :=
      rfl
    rw [he, pyInt_den_one_cast (hden s hs), mul_div_assoc,
      div_self hfq, mul_one]
    exact le_max_right _ _
  · exact zoom_segments_nonzero _

/-- C9 witness: the disabled-animation theorem applied to the spec
example's inputs. -/
theorem c9_ken_burns_disabled_witness :
    (mkGenerator 1920 1080 [exSnippet] [] 30 2 3 1 2 1 4
        false).intro_duration = 0 ∧
    (calculate_keyframes_core (mkGenerator 1920 1080 [exSnippet] [] 30 2 3 1 2
        1 4 false)).length =
      (calculate_keyframes_core (mkGenerator 1920 1080 [exSnippet] [] 30 2 3 1
        2 1 4 true)).length ∧
    (∀ s ∈ [exSnippet], (1 : ℚ) ≤
      ((hold_frames (mkGenerator 1920 1080 [exSnippet] [] 30 2 3 1 2 1 4
        false) s : Int) : ℚ) / ((30 : Int) : ℚ)) := by
  have h := c9_ken_burns_disabled 1920 1080 [exSnippet] [] 30 2 3 1 2 1 4
    (by decide) (by
      intro s hs
      simp only [List.mem_singleton] at hs
      subst hs
      norm_num [exSnippet])
  exact ⟨h.1, h.2.2.2.2.1, h.2.2.2.2.2.1⟩

/-- C10: the sub-image start-time walk is total in `after_snip`: it covers
exactly `min(after_snip + 1, #snippets)` snippets (never more than exist,
so no index error is possible); a negative `after_snip` walks zero
snippets and yields the end of the intro, and an `after_snip` at or beyond
the snippet count walks all snippets and yields the end of the last
snippet's hold. -/
theorem c10_sub_start_total (g : KenBurnsGenerator) (a : Int) :
    (g.snippets.take (sub_walk_count a g.snippets.length)).length =
      sub_walk_count a g.snippets.length ∧
    sub_walk_count a g.snippets.length ≤ g.snippets.length ∧
    (a < 0 → sub_start_time g a = g.intro_duration) ∧
    ((g.snippets.length : Int) ≤ a →
      sub_start_time g a = g.intro_duration + clock_seconds g g.snippets) :=
  ⟨sub_walk_covers g a, sub_walk_count_le a g.snippets.length,
    fun h => sub_start_time_neg g a h, fun h => sub_start_time_ge g a h⟩

/-- C10 witness: on the one-snippet example, `after_snip = -1` starts at
the end of the intro and `after_snip = 5` starts after the last hold. -/
theorem c10_sub_start_total_witness :
    sub_start_time exGenerator (-1) = exGenerator.intro_duration ∧
    sub_start_time exGenerator 5 =
      exGenerator.intro_duration + clock_seconds exGenerator
        exGenerator.snippets :=
  ⟨(c10_sub_start_total exGenerator (-1)).2.2.1 (by decide),
    (c10_sub_start_total exGenerator 5).2.2.2 (by decide)⟩
